import Mathlib

/-!
Verification of the remote action execution core
(`lib/ansible/plugins/action/__init__.py`, class `ActionBase`).

The Python source is shallowly embedded: every definition below transcribes
one function (or a contiguous fragment) of the source file.  Strings are
modelled as Lean `String` or, where character-level processing matters, as
`List Char`.  Python dictionaries are modelled as association lists whose
update (`set_assoc`) replaces the binding of an existing key in place, like
`d[k] = v`.  External collaborators (the templar, the JSON decoder, the
remote shell) are parameters of the embedded functions.
-/

/-- Single-quote character, ASCII 39 (avoids quoting issues in literals). -/
def squoteChar : Char := Char.ofNat 39

/-- Double-quote character, ASCII 34. -/
def dquoteChar : Char := Char.ofNat 34

/-- Opening curly brace character, ASCII 123. -/
def lbraceChar : Char := Char.ofNat 123

/-- Opening square bracket character, ASCII 91. -/
def lbrackChar : Char := Char.ofNat 91

/-- Python `str.isspace` characters relevant to `str.strip()`:
space, tab, newline, carriage return, vertical tab, form feed. -/
def is_py_space (c : Char) : Bool :=
  c = ' ' || c = '\t' || c = '\n' || c = '\r' || c = Char.ofNat 11 || c = Char.ofNat 12

/-- Python `data.strip()`: remove leading and trailing whitespace. -/
def py_strip (s : List Char) : List Char :=
  ((s.dropWhile is_py_space).reverse.dropWhile is_py_space).reverse

/-- Python `needle in hay` substring test on strings (as char lists). -/
def contains_substr (needle : List Char) : List Char → Bool
  | [] => needle.isPrefixOf []
  | c :: t => needle.isPrefixOf (c :: t) || contains_substr needle t

/-- Python `sub in hay` on `String`. -/
def str_contains (hay sub : String) : Bool :=
  contains_substr sub.data hay.data

/-- Python dict assignment `d[k] = v` on an association list: replaces the
first binding of `k` if present, otherwise appends a new binding. -/
def set_assoc {β : Type} : List (String × β) → String → β → List (String × β)
  | [], k, v => [(k, v)]
  | (k0, v0) :: rest, k, v =>
    if k0 = k then (k0, v) :: rest else (k0, v0) :: set_assoc rest k v

/-- Python dict lookup `d[k]` (first binding wins). -/
def lookup_assoc {β : Type} : List (String × β) → String → Option β
  | [], _ => none
  | (k0, v0) :: rest, k => if k0 = k then some v0 else lookup_assoc rest k

/-- A Python environment mapping (`str → str` dict). -/
abbrev EnvMap := List (String × String)

/-- Python `final_environment.update(temp_environment)`: shallow merge, the
entries of `e` overriding those of `d`. -/
def dict_update (d e : EnvMap) : EnvMap :=
  e.foldl (fun acc kv => set_assoc acc kv.1 kv.2) d

/-- A value stored in the `args` mapping of a task. -/
inductive PyVal
  | str (s : String)
  | bool (b : Bool)
  | int (n : Int)
deriving DecidableEq

/-- The `args` mapping of a task. -/
abbrev PyArgs := List (String × PyVal)

/-- `task.environment`: either a single mapping or an ordered sequence of
optional mappings (`None` entries are skipped by the merge loop). -/
inductive TaskEnvironment
  | dict (m : EnvMap)
  | list (ms : List (Option EnvMap))
deriving DecidableEq

/-- The task object handed to `ActionBase.__init__` (the fields the core
reads: `action`, `args`, `environment`). -/
structure AnsibleTask where
  action : String
  args : PyArgs
  environment : Option TaskEnvironment
deriving DecidableEq

/-- The merge loop of `_compute_environment_string` (lines 167-175): iterate
the (already reversed) sequence, skip `None` entries, template each mapping
and shallow-merge it into the accumulator with `dict.update`. -/
def merge_environments (tmpl : EnvMap → EnvMap) (environments : List (Option EnvMap)) : EnvMap :=
  environments.foldl
    (fun acc oenv =>
      match oenv with
      | none => acc
      | some env => dict_update acc (tmpl env))
    []

/-- `ActionBase._compute_environment_string` (lines 152-178), parameterised
by the templar.  Returns the final mapping handed to `shell.env_prefix`
together with the task object as it is left after the call: when
`task.environment` is a list, `environments.reverse()` reverses that very
list object in place, so the task comes back with its environment reversed.
A templar returning a non-mapping raises; that external behaviour is not
modelled (the theorems instantiate the templar explicitly). -/
def compute_environment_string (tmpl : EnvMap → EnvMap) (task : AnsibleTask) : EnvMap × AnsibleTask :=
  match task.environment with
  | none => (tmpl [], task)
  | some (TaskEnvironment.dict m) =>
    -- not a list: wrapped in a fresh singleton list, so reversing it
    -- does not touch the task
    (tmpl (merge_environments tmpl [some m]), task)
  | some (TaskEnvironment.list ms) =>
    let environments := ms.reverse
    (tmpl (merge_environments tmpl environments),
      { task with environment := some (TaskEnvironment.list environments) })

/-- Lookup that scans an ordered sequence of optional mappings front to
back and returns the value of the first mapping that contains the key. -/
def first_env_lookup : List (Option EnvMap) → String → Option String
  | [], _ => none
  | none :: rest, k => first_env_lookup rest k
  | some m :: rest, k =>
    match lookup_assoc m k with
    | some v => some v
    | none => first_env_lookup rest k

/-- Formalisation of the spec sentence for the environment merge: an
ordered sequence of mappings is merged "with later winning", i.e. the value
comes from the last mapping of the original sequence that contains the key. -/
def spec_env_lookup_last_wins (ms : List (Option EnvMap)) (k : String) : Option String :=
  first_env_lookup ms.reverse k

/-- The reserved control-argument names `_execute_module` injects. -/
def ansible_control_keys : List String :=
  ["_ansible_check_mode", "_ansible_no_log", "_ansible_debug",
   "_ansible_diff", "_ansible_verbosity"]

/-- The control-argument injection fragment of `_execute_module`
(lines 521-542): mutates the args mapping (which aliases `task.args` when no
explicit `module_args` was passed), raising when check mode is requested but
unsupported. -/
def inject_control_args (check_mode supports_check_mode no_log default_no_target_syslog
    default_debug diff : Bool) (verbosity : Int) (args : PyArgs) : Except String PyArgs :=
  if check_mode && !supports_check_mode then
    Except.error "check mode is not supported for this operation"
  else
    let a1 := set_assoc args "_ansible_check_mode" (PyVal.bool check_mode)
    let a2 := set_assoc a1 "_ansible_no_log" (PyVal.bool (no_log || default_no_target_syslog))
    let a3 := set_assoc a2 "_ansible_debug" (PyVal.bool default_debug)
    let a4 := set_assoc a3 "_ansible_diff" (PyVal.bool diff)
    let a5 := set_assoc a4 "_ansible_verbosity" (PyVal.int verbosity)
    Except.ok a5

/-- Python truthiness of an optional string (`None` and `""` are falsy). -/
def tmp_truthy : Option String → Bool
  | none => false
  | some s => !(s == "")

/-- `ActionBase._late_needs_tmp_path` (lines 187-201). -/
def late_needs_tmp_path (tmp : Option String) (has_pipelining pipelining
    keep_remote_files : Bool) (become_method module_style : String) : Bool :=
  if tmp_truthy tmp && str_contains (tmp.getD "") "tmp" then
    -- tmp has already been created
    false
  else if !has_pipelining || !pipelining || keep_remote_files || become_method == "su" then
    true
  else if module_style != "new" then
    true
  else
    false

/-- Formalisation of the reading the claim gives of `_late_needs_tmp_path`: the
plain disjunction of the five conditions, with "an existing tmp is absent"
as one of the disjuncts. -/
def spec_late_needs_tmp_path (tmp : Option String) (has_pipelining pipelining
    keep_remote_files : Bool) (become_method module_style : String) : Bool :=
  (!(tmp_truthy tmp && str_contains (tmp.getD "") "tmp")) || !has_pipelining || !pipelining
    || keep_remote_files || become_method == "su" || module_style != "new"

/-- The `rm_tmp` decision of `_execute_module` (lines 590-595): the tmp path
is piggy-backed into the module command for removal only when it is truthy,
contains the substring `tmp`, `DEFAULT_KEEP_REMOTE_FILES` is off,
`persist_files` is off, `delete_remote_tmp` is on, and we are either not
becoming or becoming root. -/
def build_rm_tmp (tmp : Option String) (keep_remote_files persist_files
    delete_remote_tmp become : Bool) (become_user : String) : Option String :=
  match tmp with
  | none => none
  | some t =>
    if (!(t == "")) && str_contains t "tmp" && !keep_remote_files
        && !persist_files && delete_remote_tmp then
      if !become || become_user == "root" then some t else none
    else none

/-- Formalisation of the condition the claim states for piggy-backed cleanup: it
requires the substring `-tmp-` in the tmp path. -/
def spec_rm_tmp_allowed (tmp : Option String) (keep_remote_files persist_files
    delete_remote_tmp become : Bool) (become_user : String) : Bool :=
  str_contains (tmp.getD "") "-tmp-" && !keep_remote_files && !persist_files
    && delete_remote_tmp && (!become || become_user == "root")

/-- A remote operation issued by `_fixup_perms` through the low-level
executor (`_remote_chmod`, `_remote_chown`, `_remote_set_user_facl`). -/
inductive RemoteOp
  | chmod (mode path : String) (recursive : Bool)
  | chown (path user : String) (recursive : Bool)
  | set_user_facl (path user mode : String) (recursive : Bool)
deriving DecidableEq

/-- The context `_fixup_perms` reads: the shell family, the become settings
of the play context, the `ALLOW_WORLD_READABLE_TMPFILES` knob, and an oracle
giving the return code of each remote operation the fixer may issue. -/
structure ShellCtx where
  shell_family : String
  become : Bool
  become_user : String
  allow_world_readable_tmpfiles : Bool
  rc : RemoteOp → Int

/-- `ActionBase._fixup_perms` (lines 294-377).  Returns the ordered list of
remote operations issued together with the outcome (the remote path, or the
raised error).  Follows the source exactly: PowerShell shells and `None`
paths are no-ops; becoming an unprivileged user distinct from the login user
runs the chown / setfacl / world-readable escalation ladder; otherwise a
bare `chmod u+x` is issued when `execute` is requested. -/
def fixup_perms (ctx : ShellCtx) (remote_path : Option String) (remote_user : String)
    (execute recursive : Bool) : List RemoteOp × Except String (Option String) :=
  if ctx.shell_family == "powershell" then
    ([], Except.ok remote_path)
  else
    match remote_path with
    | none => ([], Except.ok none)
    | some path =>
      if ctx.become && !(ctx.become_user == "root" || ctx.become_user == remote_user) then
        let chownOp := RemoteOp.chown path ctx.become_user recursive
        if ctx.rc chownOp = 0 then
          if execute then
            let chmodOp := RemoteOp.chmod "u+x" path recursive
            if ctx.rc chmodOp = 0 then
              ([chownOp, chmodOp], Except.ok (some path))
            else
              ([chownOp, chmodOp],
                Except.error "Failed to set file mode on remote temporary files")
          else
            ([chownOp], Except.ok (some path))
        else if remote_user == "root" then
          ([chownOp],
            Except.error "Failed to change ownership of the temporary files Ansible needs to create despite connecting as root.  Unprivileged become user would be unable to read the file.")
        else
          let mode := if execute then "rx" else "rX"
          let faclOp := RemoteOp.set_user_facl path ctx.become_user mode recursive
          if ctx.rc faclOp = 0 then
            ([chownOp, faclOp], Except.ok (some path))
          else if ctx.allow_world_readable_tmpfiles then
            let chmodOp := RemoteOp.chmod ("a+" ++ mode) path recursive
            if ctx.rc chmodOp = 0 then
              ([chownOp, faclOp, chmodOp], Except.ok (some path))
            else
              ([chownOp, faclOp, chmodOp],
                Except.error "Failed to set file mode on remote files")
          else
            ([chownOp, faclOp],
              Except.error "Failed to set permissions on the temporary files Ansible needs to create when becoming an unprivileged user.")
      else if execute then
        let chmodOp := RemoteOp.chmod "u+x" path recursive
        if ctx.rc chmodOp = 0 then
          ([chmodOp], Except.ok (some path))
        else
          ([chmodOp], Except.error "Failed to set file mode on remote files")
      else
        ([], Except.ok (some path))

/-- Drop characters up to and including the first newline; `none` when the
list has no newline.  This is how far the regex fragment of
`_strip_success_message` extends past the sentinel text. -/
def drop_through_newline : List Char → Option (List Char)
  | [] => none
  | c :: cs => if c = '\n' then some cs else drop_through_newline cs

/-- Try to match the body of the regex at the given position: the literal
`BECOME-SUCCESS` followed by `.*(\r)?\n`, i.e. everything up to and
including the first newline after the literal.  Returns the remainder. -/
def match_become_at (l : List Char) : Option (List Char) :=
  if "BECOME-SUCCESS".data.isPrefixOf l then drop_through_newline (l.drop 14) else none

/-- The regex of `_strip_success_message`, anchored at the start of the
string: leading group of at most one (optionally carriage-return preceded)
newline, then the `BECOME-SUCCESS` line through its terminating newline. -/
def try_become_regex (data : List Char) : Option (List Char) :=
  match data with
  | c1 :: c2 :: rest =>
    if c1 = '\r' && c2 = '\n' then
      match match_become_at rest with
      | some r => some r
      | none => match_become_at data
    else if c1 = '\n' then
      match match_become_at (c2 :: rest) with
      | some r => some r
      | none => match_become_at data
    else
      match_become_at data
  | c1 :: rest =>
    if c1 = '\n' then
      match match_become_at rest with
      | some r => some r
      | none => match_become_at data
    else
      match_become_at data
  | [] => match_become_at []

/-- `ActionBase._strip_success_message` (lines 499-505): when the stripped
data starts with `BECOME-SUCCESS-`, apply the anchored regex substitution;
when the regex does not match at the start of the raw data, the data comes
back unchanged. -/
def strip_success_message (data : List Char) : List Char :=
  if "BECOME-SUCCESS-".data.isPrefixOf (py_strip data) then
    match try_become_regex data with
    | some rest => rest
    | none => data
  else
    data

/-- A `BECOME-SUCCESS-` sentinel followed (on the same line) by a newline
occurs somewhere in the data. -/
def has_become_success_line : List Char → Bool
  | [] => false
  | c :: cs =>
    ("BECOME-SUCCESS-".data.isPrefixOf (c :: cs) && ((c :: cs).drop 15).contains '\n')
      || has_become_success_line cs

/-- Python `data.splitlines(True)` restricted to the `\n`, `\r\n` and `\r`
line boundaries: split into lines, keeping the line terminators. -/
def splitlines_keepends : List Char → List Char → List (List Char)
  | acc, [] => if acc.isEmpty then [] else [acc]
  | acc, '\r' :: '\n' :: cs => (acc ++ ['\r', '\n']) :: splitlines_keepends [] cs
  | acc, '\r' :: cs => (acc ++ ['\r']) :: splitlines_keepends [] cs
  | acc, '\n' :: cs => (acc ++ ['\n']) :: splitlines_keepends [] cs
  | acc, c :: cs => splitlines_keepends (acc ++ [c]) cs

/-- `ActionBase._filter_leading_non_json_lines` (lines 483-497): drop the
leading lines that do not start with an opening brace or bracket and return
the rest of the data from the first such line onward. -/
def filter_leading_non_json_lines (data : List Char) : List Char :=
  ((splitlines_keepends [] data).dropWhile
      (fun line => !(line.head? = some lbraceChar || line.head? = some lbrackChar))).flatten

/-- The raw result handed to `_parse_returned_data` by the low-level
executor: a Python dict that may or may not carry `stdout` and `stderr`. -/
structure RawResult where
  stdout : Option (List Char)
  stderr : Option (List Char)

/-- A value of the synthesized failure dict. -/
inductive RVal
  | b (x : Bool)
  | s (x : List Char)
deriving DecidableEq

/-- The outcome of `_parse_returned_data`: either the JSON document decoded
from the filtered stdout, or the synthesized failure mapping. -/
inductive ParsedResult (α : Type)
  | parsedJson (j : α)
  | failure (fields : List (String × RVal))

/-- `ActionBase._parse_returned_data` (lines 628-640), parameterised by the
external JSON decoder (`json.loads`, returning `none` where Python raises
`ValueError`). -/
def parse_returned_data {α : Type} (json_loads : List Char → Option α)
    (res : RawResult) : ParsedResult α :=
  match json_loads (filter_leading_non_json_lines (res.stdout.getD [])) with
  | some j => ParsedResult.parsedJson j
  | none =>
    let data : List (String × RVal) := [("failed", RVal.b true), ("parsed", RVal.b false)]
    let data := set_assoc data "msg" (RVal.s "MODULE FAILURE".data)
    let data := set_assoc data "module_stdout" (RVal.s (res.stdout.getD []))
    let data :=
      match res.stderr with
      | none => data
      | some err =>
        let d2 := set_assoc data "module_stderr" (RVal.s err)
        if "Traceback".data.isPrefixOf err then set_assoc d2 "exception" (RVal.s err) else d2
    ParsedResult.failure data

/-- A Python exception as seen by `_remote_checksum`: an `AnsibleError`
(carrying its message), a `KeyError`, or any other exception. -/
inductive PyErr
  | ansibleError (msg : String)
  | keyError (k : String)
  | otherError
deriving DecidableEq

/-- The `stat` sub-dict of the result of the external `stat` module:
`exists` and `isdir` flags and an optional `checksum` entry. -/
structure StatFields where
  fexists : Bool
  isdir : Bool
  checksum : Option String
deriving DecidableEq

/-- The result dict of invoking the `stat` module via `_execute_module`:
`failed` flag, message, and the optional `stat` sub-dict (its absence makes
the Python code raise `KeyError`). -/
structure ModuleStatResult where
  failed : Bool
  msg : String
  stat : Option StatFields
deriving DecidableEq

/-- The dict `_execute_remote_stat` returns after its substitutions. -/
structure StatResult where
  fexists : Bool
  isdir : Bool
  checksum : String
deriving DecidableEq

/-- `ActionBase._execute_remote_stat` (lines 403-427).  The input is the
outcome of the underlying `_execute_module` call: either a raised exception
or the result dict of the module.  A `failed` result raises `AnsibleError`
with the message of the module appended; a missing `stat` key raises `KeyError`; a
missing file gets checksum `"1"`, and a missing checksum key gets `""`. -/
def execute_remote_stat (path : String) (mystat : Except PyErr ModuleStatResult) :
    Except PyErr StatResult :=
  match mystat with
  | Except.error e => Except.error e
  | Except.ok m =>
    if m.failed then
      Except.error (PyErr.ansibleError
        ("Failed to get information on remote file (" ++ path ++ "): " ++ m.msg))
    else
      match m.stat with
      | none => Except.error (PyErr.keyError "stat")
      | some st =>
        Except.ok
          { fexists := st.fexists
            isdir := st.isdir
            checksum := if !st.fexists then "1" else st.checksum.getD "" }

/-- The `try`/`except AnsibleError` part of `_remote_checksum`
(lines 439-451), before the `finally` clause runs: `Except.error` means an
exception is still in flight (the variable `x` still holds `"0"`). -/
def remote_checksum_try (path : String) (mystat : Except PyErr ModuleStatResult) :
    Except PyErr String :=
  match execute_remote_stat path mystat with
  | Except.ok rs => Except.ok (if rs.fexists && rs.isdir then "3" else rs.checksum)
  | Except.error (PyErr.ansibleError m) =>
    Except.ok
      (if m.endsWith "Permission denied" then "2"
       else if m.endsWith "MODULE FAILURE" then "4"
       else "0")
  | Except.error e => Except.error e

/-- `ActionBase._remote_checksum` (lines 429-453) including the `finally`
clause: `return x` in a `finally` block suppresses any exception in flight
and returns the current value of `x`, which is `"0"` whenever the `try`
body did not complete and no `except` branch reassigned it. -/
def remote_checksum (path : String) (mystat : Except PyErr ModuleStatResult) : String :=
  match remote_checksum_try path mystat with
  | Except.ok s => s
  | Except.error _ => "0"

/-- The safe characters of the Python 2 `pipes.quote` function. -/
def pipes_safechars : List Char :=
  "abcdefghijklmnopqrstuvwxyzABCDEFGHIJKLMNOPQRSTUVWXYZ0123456789@%_-+=:,./".data

/-- One character is `pipes.quote`-safe. -/
def is_safe_char (c : Char) : Bool := pipes_safechars.contains c

/-- Python 2 `pipes.quote`: a nonempty all-safe string is returned as is;
anything else (including the empty string) is wrapped in single quotes with
each embedded single quote replaced by the five-character sequence
single-quote double-quote single-quote double-quote single-quote. -/
def pipes_quote (s : List Char) : List Char :=
  if !s.isEmpty && s.all is_safe_char then s
  else
    squoteChar ::
      (s.foldr
        (fun c acc =>
          (if c = squoteChar then
            [squoteChar, dquoteChar, squoteChar, dquoteChar, squoteChar]
          else [c]) ++ acc)
        []) ++ [squoteChar]

/-- The old-style args emission of `_execute_module` (lines 567-569): for
each key/value pair append `k="<pipes.quote v>" ` (note the literal double
quotes and the trailing space). -/
def emit_old_style_args (args : List (List Char × List Char)) : List Char :=
  args.foldl
    (fun acc kv =>
      acc ++ kv.1 ++ ['=', dquoteChar] ++ pipes_quote kv.2 ++ [dquoteChar, ' '])
    []

/-- State of the shell-unquoting tokenizer: outside quotes, inside single
quotes, inside double quotes. -/
inductive QState
  | norm
  | inS
  | inD

/-- Shell field splitting with quote removal, modelled from the words of the spec
("parsing the file contents back with shell unquoting"): fields are
separated by unquoted spaces; single- and double-quoted runs contribute
their contents literally; an unterminated quote is an error. -/
def shell_split_aux : QState → Option (List Char) → List Char → Option (List (List Char))
  | QState.norm, cur, [] =>
    some (match cur with | none => [] | some w => [w])
  | QState.inS, _, [] => none
  | QState.inD, _, [] => none
  | QState.norm, cur, c :: cs =>
    if c = ' ' then
      match cur with
      | none => shell_split_aux QState.norm none cs
      | some w => (shell_split_aux QState.norm none cs).map (fun ws => w :: ws)
    else if c = squoteChar then shell_split_aux QState.inS (some (cur.getD [])) cs
    else if c = dquoteChar then shell_split_aux QState.inD (some (cur.getD [])) cs
    else shell_split_aux QState.norm (some (cur.getD [] ++ [c])) cs
  | QState.inS, cur, c :: cs =>
    if c = squoteChar then shell_split_aux QState.norm cur cs
    else shell_split_aux QState.inS (some (cur.getD [] ++ [c])) cs
  | QState.inD, cur, c :: cs =>
    if c = dquoteChar then shell_split_aux QState.norm cur cs
    else shell_split_aux QState.inD (some (cur.getD [] ++ [c])) cs

/-- Split one shell word at its first `=` into a key/value pair. -/
def split_eq : List Char → Option (List Char × List Char)
  | [] => none
  | c :: cs =>
    if c = '=' then some ([], cs)
    else (split_eq cs).map (fun p => (c :: p.1, p.2))

/-- Modelled from the spec: parse an old-style args file back into the
argument mapping by shell field splitting with unquoting, then splitting
each field at its first `=`. -/
def spec_parse_old_style_args (s : List Char) : Option (List (List Char × List Char)) :=
  (shell_split_aux QState.norm none s).bind (fun ws => ws.mapM split_eq)

/-! ### Association-list lemmas -/

/-- Looking a key up after a dict assignment. -/
theorem lookup_set_assoc {β : Type} (d : List (String × β)) (k : String) (v : β)
    (k2 : String) :
    lookup_assoc (set_assoc d k v) k2 = if k = k2 then some v else lookup_assoc d k2 := by
  induction d with
  | nil => simp [set_assoc, lookup_assoc]
  | cons hd tl ih =>
    obtain ⟨k0, v0⟩ := hd
    by_cases h1 : k0 = k
    · subst h1
      by_cases h2 : k0 = k2 <;> simp [set_assoc, lookup_assoc, h2]
    · by_cases h2 : k0 = k2
      · subst h2
        have hne : ¬ k = k0 := fun e => h1 e.symm
        simp [set_assoc, lookup_assoc, h1, hne]
      · simp [set_assoc, lookup_assoc, h1, h2, ih]

/-- A key absent from an association list looks up to `none`. -/
theorem lookup_assoc_eq_none_of_not_mem {β : Type} (m : List (String × β)) (k : String)
    (h : k ∉ m.map Prod.fst) : lookup_assoc m k = none := by
  induction m with
  | nil => rfl
  | cons hd tl ih =>
    obtain ⟨k0, v0⟩ := hd
    simp only [List.map_cons, List.mem_cons, not_or] at h
    have hne : k0 ≠ k := fun e => h.1 e.symm
    simp [lookup_assoc, hne, ih h.2]

/-- Lookup through `dict.update`: entries of `e` (a duplicate-free dict)
win over entries of `d`. -/
theorem lookup_dict_update (d e : EnvMap) (k : String)
    (he : (e.map Prod.fst).Nodup) :
    lookup_assoc (dict_update d e) k =
      match lookup_assoc e k with
      | some v => some v
      | none => lookup_assoc d k := by
  induction e generalizing d with
  | nil => simp [dict_update, lookup_assoc]
  | cons hd tl ih =>
    obtain ⟨k0, v0⟩ := hd
    simp only [List.map_cons, List.nodup_cons] at he
    have step : dict_update d ((k0, v0) :: tl) = dict_update (set_assoc d k0 v0) tl := rfl
    rw [step, ih _ he.2]
    by_cases h : k0 = k
    · subst h
      have hnone : lookup_assoc tl k0 = none := lookup_assoc_eq_none_of_not_mem tl k0 he.1
      simp [lookup_assoc, hnone, lookup_set_assoc]
    · cases htl : lookup_assoc tl k <;> simp [lookup_assoc, h, htl, lookup_set_assoc]

/-- The reversed-then-merged sequence resolves every key to the value of
the first mapping of the original sequence that contains it. -/
theorem lookup_merge_reverse (ms : List (Option EnvMap)) (k : String)
    (h : ∀ m : EnvMap, some m ∈ ms → (m.map Prod.fst).Nodup) :
    lookup_assoc (merge_environments (fun m => m) ms.reverse) k = first_env_lookup ms k := by
  induction ms with
  | nil => rfl
  | cons hd tl ih =>
    have hrev : (hd :: tl).reverse = tl.reverse ++ [hd] := by simp
    have hm : merge_environments (fun m => m) ((hd :: tl).reverse) =
        (match hd with
         | none => merge_environments (fun m => m) tl.reverse
         | some m => dict_update (merge_environments (fun m => m) tl.reverse) m) := by
      rw [hrev]
      unfold merge_environments
      rw [List.foldl_append]
      cases hd <;> rfl
    cases hd with
    | none =>
      rw [hm, ih (fun m hmem => h m (List.mem_cons_of_mem _ hmem))]
      rfl
    | some m =>
      rw [hm, lookup_dict_update _ _ _ (h m (List.mem_cons_self _ _)),
        ih (fun m2 hmem => h m2 (List.mem_cons_of_mem _ hmem))]
      cases hmk : lookup_assoc m k <;> simp [first_env_lookup, hmk]

/-! ### Claims C5, C6, C7, C10, C3 -/

/-- C5 (amended): the piggy-backed removal decision of `_execute_module`
requests removal exactly when the tmp path is a nonempty string containing
the substring `tmp` (not `-tmp-` as claimed), `DEFAULT_KEEP_REMOTE_FILES`
is off, `persist_files` is off, `delete_remote_tmp` is on, and either become
is inactive or the become user is root. -/
theorem claim_C5 (tmp : Option String) (keep_remote_files persist_files
    delete_remote_tmp become : Bool) (become_user : String) :
    build_rm_tmp tmp keep_remote_files persist_files delete_remote_tmp become become_user =
      if (!(tmp.getD "" == "")) && str_contains (tmp.getD "") "tmp" && !keep_remote_files
          && !persist_files && delete_remote_tmp && (!become || become_user == "root") then
        tmp
      else none := by
  cases tmp with
  | none => rfl
  | some t =>
    simp only [build_rm_tmp, Option.getD_some]
    by_cases hA : ((!(t == "")) && str_contains t "tmp" && !keep_remote_files
        && !persist_files && delete_remote_tmp) = true
    · by_cases hB : (!become || become_user == "root") = true <;> simp [hA, hB]
    · rw [Bool.not_eq_true] at hA
      simp [hA]

/-- C5 counterexample: a tmp path containing `tmp` but not `-tmp-` is still
piggy-backed for removal, although the condition stated by the claim forbids it. -/
theorem claim_C5_counterexample :
    build_rm_tmp (some "/var/xtmpx") false false true false "u" = some "/var/xtmpx" ∧
    spec_rm_tmp_allowed (some "/var/xtmpx") false false true false "u" = false := by
  decide

/-- C6 (amended): `_late_needs_tmp_path` is not the plain disjunction the
claim states; an already existing tmp path (nonempty, containing `tmp`)
forces the result to false, and only otherwise does the disjunction of the
remaining conditions decide the result. -/
theorem claim_C6 (tmp : Option String) (has_pipelining pipelining keep_remote_files : Bool)
    (become_method module_style : String) :
    late_needs_tmp_path tmp has_pipelining pipelining keep_remote_files become_method
        module_style =
      ((!(tmp_truthy tmp && str_contains (tmp.getD "") "tmp"))
        && (!has_pipelining || !pipelining || keep_remote_files || become_method == "su"
            || module_style != "new")) := by
  unfold late_needs_tmp_path
  cases h1 : tmp_truthy tmp && str_contains (tmp.getD "") "tmp" <;>
    cases has_pipelining <;> cases pipelining <;> cases keep_remote_files <;>
      cases h2 : become_method == "su" <;> cases h3 : module_style != "new" <;>
        simp [h1, h2, h3]

/-- C6 counterexample: with no tmp at all but pipelining fully available,
`DEFAULT_KEEP_REMOTE_FILES` off, a non-`su` become method and a new-style
module, the code returns false while the disjunction stated by the claim (which has
"existing tmp absent" as a disjunct) returns true. -/
theorem claim_C6_counterexample :
    late_needs_tmp_path none true true false "sudo" "new" = false ∧
    spec_late_needs_tmp_path none true true false "sudo" "new" = true := by
  decide

/-- C7 (amended): on a POSIX shell with a non-null path, when become is
active and the become user is root or the remote user, `_fixup_perms`
issues no chown and no setfacl; it issues nothing when `execute` is false
but issues exactly one `chmod u+x` when `execute` is true. -/
theorem claim_C7 (ctx : ShellCtx) (p remote_user : String) (execute recursive : Bool)
    (hfam : ctx.shell_family = "posix") (hb : ctx.become = true)
    (hu : ctx.become_user = "root" ∨ ctx.become_user = remote_user) :
    (fixup_perms ctx (some p) remote_user execute recursive).1 =
      if execute then [RemoteOp.chmod "u+x" p recursive] else [] := by
  have h1 : (ctx.shell_family == "powershell") = false := by
    rw [hfam]; decide
  have h2 : (ctx.become_user == "root" || ctx.become_user == remote_user) = true := by
    rcases hu with h | h <;> simp [h]
  unfold fixup_perms
  rw [h1, h2]
  cases execute with
  | false => simp
  | true =>
    by_cases hrc : ctx.rc (RemoteOp.chmod "u+x" p recursive) = 0 <;> simp [hrc]

/-- C7 witness: concrete POSIX context becoming root with `execute` on. -/
theorem claim_C7_witness :
    (fixup_perms ⟨"posix", true, "root", false, fun _ => 0⟩ (some "/t") "alice" true true).1 =
      [RemoteOp.chmod "u+x" "/t" true] := by
  simpa using
    claim_C7 ⟨"posix", true, "root", false, fun _ => 0⟩ "/t" "alice" true true rfl rfl
      (Or.inl rfl)

/-- C7 counterexample: becoming root with `execute` true issues a remote
chmod, although the claim says no remote operation at all is performed. -/
theorem claim_C7_counterexample :
    (fixup_perms ⟨"posix", true, "root", false, fun _ => 0⟩ (some "/t") "alice" true true).1 =
      [RemoteOp.chmod "u+x" "/t" true] ∧
    (fixup_perms ⟨"posix", true, "root", false, fun _ => 0⟩ (some "/t") "alice" true true).1 ≠
      [] := by
  decide

/-- C10 (confirmed): `_remote_checksum` always returns a string; whenever
the `try`/`except` part leaves an exception in flight (an `AnsibleError`
whose message matches neither recognised suffix is handled, but a
non-`AnsibleError` exception is not), the `return x` in the `finally`
block suppresses it and the string `"0"` is returned. -/
theorem claim_C10 (path : String) (mystat : Except PyErr ModuleStatResult) :
    ∃ s : String, remote_checksum path mystat = s ∧
      (∀ e : PyErr, remote_checksum_try path mystat = Except.error e → s = "0") := by
  cases h : remote_checksum_try path mystat with
  | ok s =>
    refine ⟨s, ?_, ?_⟩
    · unfold remote_checksum; rw [h]
    · intro e he; cases he
  | error e =>
    refine ⟨"0", ?_, fun _ _ => rfl⟩
    unfold remote_checksum; rw [h]

/-- C10 witness: a non-`AnsibleError` exception from the stat invocation
still yields a normal string return. -/
theorem claim_C10_witness :
    ∃ s : String, remote_checksum "/p" (Except.error PyErr.otherError) = s ∧
      (∀ e : PyErr,
        remote_checksum_try "/p" (Except.error PyErr.otherError) = Except.error e →
          s = "0") :=
  claim_C10 "/p" (Except.error PyErr.otherError)

/-- C3 (amended): `_remote_checksum` returns one of the sentinels `"0"` to
`"4"` or the checksum string carried by the stat result (with `""`
substituted when the checksum key is absent); in particular the value is
not always a sentinel or a 40-character digest. -/
theorem claim_C3 (path : String) (mystat : Except PyErr ModuleStatResult) :
    remote_checksum path mystat = "0" ∨ remote_checksum path mystat = "1" ∨
    remote_checksum path mystat = "2" ∨ remote_checksum path mystat = "3" ∨
    remote_checksum path mystat = "4" ∨
    ∃ m st, mystat = Except.ok m ∧ m.stat = some st ∧
      remote_checksum path mystat = st.checksum.getD "" := by
  cases mystat with
  | error e =>
    cases e with
    | ansibleError m =>
      by_cases h1 : m.endsWith "Permission denied" <;>
        by_cases h2 : m.endsWith "MODULE FAILURE" <;>
          simp [remote_checksum, remote_checksum_try, execute_remote_stat, h1, h2]
    | keyError k =>
      simp [remote_checksum, remote_checksum_try, execute_remote_stat]
    | otherError =>
      simp [remote_checksum, remote_checksum_try, execute_remote_stat]
  | ok m =>
    by_cases hf : m.failed
    · by_cases h1 : ("Failed to get information on remote file (" ++ path ++ "): "
          ++ m.msg).endsWith "Permission denied" <;>
        by_cases h2 : ("Failed to get information on remote file (" ++ path ++ "): "
            ++ m.msg).endsWith "MODULE FAILURE" <;>
          simp [remote_checksum, remote_checksum_try, execute_remote_stat, hf, h1, h2]
    · cases hstat : m.stat with
      | none => simp [remote_checksum, remote_checksum_try, execute_remote_stat, hf, hstat]
      | some st =>
        obtain ⟨fe, dir, ck⟩ := st
        cases fe with
        | false =>
          cases dir <;>
            simp [remote_checksum, remote_checksum_try, execute_remote_stat, hf, hstat]
        | true =>
          cases dir with
          | true =>
            simp [remote_checksum, remote_checksum_try, execute_remote_stat, hf, hstat]
          | false =>
            refine Or.inr (Or.inr (Or.inr (Or.inr (Or.inr
              ⟨m, ⟨true, false, ck⟩, rfl, hstat, ?_⟩))))
            simp [remote_checksum, remote_checksum_try, execute_remote_stat, hf, hstat]

/-- C3 counterexample: a stat result for an existing non-directory that
lacks a checksum key makes `_remote_checksum` return the empty string,
which is neither one of the five sentinels nor a 40-character digest. -/
theorem claim_C3_counterexample :
    remote_checksum "/p" (Except.ok ⟨false, "", some ⟨true, false, none⟩⟩) = "" ∧
    ("" : String) ∉ (["0", "1", "2", "3", "4"] : List String) ∧
    ("" : String).length ≠ 40 := by
  decide

/-! ### Claims C1 and C2 -/

/-- C1 (amended): with the identity templar, the environment string
computed by `_compute_environment_string` gives precedence to *earlier*
entries of the original sequence: the value passed to `shell.env_prefix`
for a key is the one from the first mapping of the original (pre-reversal)
sequence that contains it, because the code reverses the list and then
shallow-merges, so originally-first entries are merged last. -/
theorem claim_C1 (task : AnsibleTask) (ms : List (Option EnvMap)) (k : String)
    (henv : task.environment = some (TaskEnvironment.list ms))
    (hnodup : ∀ m : EnvMap, some m ∈ ms → (m.map Prod.fst).Nodup) :
    lookup_assoc (compute_environment_string (fun m => m) task).1 k =
      first_env_lookup ms k := by
  unfold compute_environment_string
  rw [henv]
  exact lookup_merge_reverse ms k hnodup

/-- C1 witness: two mappings that both bind `K`. -/
theorem claim_C1_witness :
    lookup_assoc
      (compute_environment_string (fun m => m)
        ⟨"ping", [], some (TaskEnvironment.list [some [("K", "a")], some [("K", "b")]])⟩).1
      "K" =
      first_env_lookup [some [("K", "a")], some [("K", "b")]] "K" :=
  claim_C1
    ⟨"ping", [], some (TaskEnvironment.list [some [("K", "a")], some [("K", "b")]])⟩
    [some [("K", "a")], some [("K", "b")]] "K" rfl
    (by
      intro m hm
      cases hm with
      | head => decide
      | tail _ hm2 =>
        cases hm2 with
        | head => decide
        | tail _ hm3 => cases hm3)

/-- C1 counterexample: with the environment sequence
`[{K: a}, {K: b}]` the code passes `K = a` (the originally-first value) to
`env_prefix`, while the claim requires the originally-last value `b`. -/
theorem claim_C1_counterexample :
    lookup_assoc
      (compute_environment_string (fun m => m)
        ⟨"ping", [], some (TaskEnvironment.list [some [("K", "a")], some [("K", "b")]])⟩).1
      "K" = some "a" ∧
    spec_env_lookup_last_wins [some [("K", "a")], some [("K", "b")]] "K" = some "b" ∧
    (some "a" : Option String) ≠ some "b" := by
  decide

/-- C2 (amended): the core mutates the task object rather than leaving it
unchanged. `_compute_environment_string` reverses a list-valued
`task.environment` in place, and the control-argument injection of
`_execute_module` (which writes through to `task.args` when no explicit
`module_args` is passed) adds the five `_ansible_*` control keys while
leaving the value of every other key intact. -/
theorem claim_C2 (tmpl : EnvMap → EnvMap) (task : AnsibleTask)
    (ms : List (Option EnvMap))
    (henv : task.environment = some (TaskEnvironment.list ms))
    (check_mode supports_check_mode no_log default_no_target_syslog
      default_debug diff : Bool) (verbosity : Int) (args args2 : PyArgs)
    (hok : inject_control_args check_mode supports_check_mode no_log
      default_no_target_syslog default_debug diff verbosity args = Except.ok args2) :
    (compute_environment_string tmpl task).2.environment =
      some (TaskEnvironment.list ms.reverse) ∧
    (∀ k, k ∉ ansible_control_keys → lookup_assoc args2 k = lookup_assoc args k) ∧
    lookup_assoc args2 "_ansible_check_mode" = some (PyVal.bool check_mode) ∧
    lookup_assoc args2 "_ansible_no_log" =
      some (PyVal.bool (no_log || default_no_target_syslog)) ∧
    lookup_assoc args2 "_ansible_debug" = some (PyVal.bool default_debug) ∧
    lookup_assoc args2 "_ansible_diff" = some (PyVal.bool diff) ∧
    lookup_assoc args2 "_ansible_verbosity" = some (PyVal.int verbosity) := by
  have henv2 : (compute_environment_string tmpl task).2.environment =
      some (TaskEnvironment.list ms.reverse) := by
    unfold compute_environment_string
    rw [henv]
  have hargs : args2 =
      set_assoc (set_assoc (set_assoc (set_assoc (set_assoc args
        "_ansible_check_mode" (PyVal.bool check_mode))
        "_ansible_no_log" (PyVal.bool (no_log || default_no_target_syslog)))
        "_ansible_debug" (PyVal.bool default_debug))
        "_ansible_diff" (PyVal.bool diff))
        "_ansible_verbosity" (PyVal.int verbosity) := by
    unfold inject_control_args at hok
    by_cases hcm : (check_mode && !supports_check_mode) = true
    · rw [if_pos hcm] at hok
      cases hok
    · rw [if_neg (by simpa using hcm)] at hok
      cases hok
      rfl
  subst hargs
  refine ⟨henv2, ?_, ?_, ?_, ?_, ?_, ?_⟩
  · intro k hk
    simp only [ansible_control_keys, List.mem_cons, List.mem_singleton, not_or] at hk
    obtain ⟨h1, h2, h3, h4, h5, -⟩ := hk
    rw [lookup_set_assoc, if_neg (fun e => h5 e.symm),
      lookup_set_assoc, if_neg (fun e => h4 e.symm),
      lookup_set_assoc, if_neg (fun e => h3 e.symm),
      lookup_set_assoc, if_neg (fun e => h2 e.symm),
      lookup_set_assoc, if_neg (fun e => h1 e.symm)]
  · simp [lookup_set_assoc]
  · simp [lookup_set_assoc]
  · simp [lookup_set_assoc]
  · simp [lookup_set_assoc]
  · simp [lookup_set_assoc]

/-- C2 witness: a concrete task with a two-element environment list and a
one-key args mapping. -/
theorem claim_C2_witness :
    (compute_environment_string (fun m => m)
      ⟨"ping", [("foo", PyVal.str "x")],
        some (TaskEnvironment.list [some [("A", "1")], some [("B", "2")]])⟩).2.environment =
      some (TaskEnvironment.list [some [("A", "1")], some [("B", "2")]].reverse) ∧
    (∀ k, k ∉ ansible_control_keys →
      lookup_assoc (inject_control_args false true false false false false 0
        [("foo", PyVal.str "x")]).toOption.get! k =
        lookup_assoc [("foo", PyVal.str "x")] k) ∧
    lookup_assoc (inject_control_args false true false false false false 0
      [("foo", PyVal.str "x")]).toOption.get! "_ansible_check_mode" =
      some (PyVal.bool false) ∧
    lookup_assoc (inject_control_args false true false false false false 0
      [("foo", PyVal.str "x")]).toOption.get! "_ansible_no_log" =
      some (PyVal.bool (false || false)) ∧
    lookup_assoc (inject_control_args false true false false false false 0
      [("foo", PyVal.str "x")]).toOption.get! "_ansible_debug" =
      some (PyVal.bool false) ∧
    lookup_assoc (inject_control_args false true false false false false 0
      [("foo", PyVal.str "x")]).toOption.get! "_ansible_diff" =
      some (PyVal.bool false) ∧
    lookup_assoc (inject_control_args false true false false false false 0
      [("foo", PyVal.str "x")]).toOption.get! "_ansible_verbosity" =
      some (PyVal.int 0) := by
  have h := claim_C2 (fun m => m)
    ⟨"ping", [("foo", PyVal.str "x")],
      some (TaskEnvironment.list [some [("A", "1")], some [("B", "2")]])⟩
    [some [("A", "1")], some [("B", "2")]] rfl
    false true false false false false 0 [("foo", PyVal.str "x")]
    ((inject_control_args false true false false false false 0
      [("foo", PyVal.str "x")]).toOption.get!) rfl
  exact h

/-- C2 counterexample: after `_compute_environment_string` runs, a task
whose environment was the list `[{A: 1}, {B: 2}]` holds that list reversed,
so the task object is not left unchanged. -/
theorem claim_C2_counterexample :
    (compute_environment_string (fun m => m)
      ⟨"ping", [], some (TaskEnvironment.list [some [("A", "1")], some [("B", "2")]])⟩).2 ≠
      ⟨"ping", [], some (TaskEnvironment.list [some [("A", "1")], some [("B", "2")]])⟩ := by
  decide

/-! ### Claim C9 -/

/-- C9 (confirmed): `_parse_returned_data` never raises.  When the filtered
stdout decodes as JSON the document is returned verbatim; otherwise a
failure mapping is synthesized with `failed=true`, `parsed=false`,
`msg="MODULE FAILURE"`, `module_stdout` equal to the raw stdout,
`module_stderr` equal to the raw stderr when present, and `exception` set
to the stderr exactly when the stderr begins with `Traceback`. -/
theorem claim_C9 {α : Type} (json_loads : List Char → Option α) (res : RawResult) :
    (∀ j, json_loads (filter_leading_non_json_lines (res.stdout.getD [])) = some j →
      parse_returned_data json_loads res = ParsedResult.parsedJson j) ∧
    (json_loads (filter_leading_non_json_lines (res.stdout.getD [])) = none →
      ∃ d, parse_returned_data json_loads res = ParsedResult.failure d ∧
        lookup_assoc d "failed" = some (RVal.b true) ∧
        lookup_assoc d "parsed" = some (RVal.b false) ∧
        lookup_assoc d "msg" = some (RVal.s "MODULE FAILURE".data) ∧
        lookup_assoc d "module_stdout" = some (RVal.s (res.stdout.getD [])) ∧
        lookup_assoc d "module_stderr" = res.stderr.map (fun e => RVal.s e) ∧
        lookup_assoc d "exception" =
          (match res.stderr with
           | some e => if "Traceback".data.isPrefixOf e then some (RVal.s e) else none
           | none => none)) := by
  constructor
  · intro j hj
    unfold parse_returned_data
    rw [hj]
  · intro hn
    unfold parse_returned_data
    rw [hn]
    cases hse : res.stderr with
    | none =>
      exact ⟨_, rfl, rfl, rfl, rfl, rfl, rfl, rfl⟩
    | some err =>
      by_cases htb : ("Traceback".data.isPrefixOf err) = true <;>
        refine ⟨_, rfl, ?_, ?_, ?_, ?_, ?_, ?_⟩ <;>
          simp [htb, lookup_assoc, set_assoc]

/-- C9 witness: a decoder that always fails on a raw result whose stderr
starts with `Traceback`. -/
theorem claim_C9_witness :
    ∃ d, parse_returned_data (fun _ => (none : Option Nat))
        ⟨some "x".data, some "Traceback: x".data⟩ = ParsedResult.failure d ∧
      lookup_assoc d "failed" = some (RVal.b true) ∧
      lookup_assoc d "parsed" = some (RVal.b false) ∧
      lookup_assoc d "msg" = some (RVal.s "MODULE FAILURE".data) ∧
      lookup_assoc d "module_stdout" = some (RVal.s "x".data) ∧
      lookup_assoc d "module_stderr" = some (RVal.s "Traceback: x".data) ∧
      lookup_assoc d "exception" = some (RVal.s "Traceback: x".data) :=
  (claim_C9 (fun _ => (none : Option Nat))
    ⟨some "x".data, some "Traceback: x".data⟩).2 rfl

/-! ### Claim C8 -/

/-- Dropping while a predicate holds skips a block that satisfies it. -/
theorem dropWhile_append_all {p : Char → Bool} (l1 l2 : List Char)
    (h : ∀ a ∈ l1, p a = true) : (l1 ++ l2).dropWhile p = l2.dropWhile p := by
  induction l1 with
  | nil => rfl
  | cons a t ih =>
    have ha := h a (List.mem_cons_self a t)
    simp [List.dropWhile_cons, ha,
      ih (fun b hb => h b (List.mem_cons_of_mem a hb))]

/-- `dropWhile` stops at a head that falsifies the predicate. -/
theorem dropWhile_cons_false {p : Char → Bool} (a : Char) (l : List Char)
    (h : p a = false) : (a :: l).dropWhile p = a :: l := by
  simp [List.dropWhile_cons, h]

/-- `dropWhile` never eats past a character falsifying the predicate. -/
theorem dropWhile_append_exists {p : Char → Bool} (u : List Char) (c : Char) (v : List Char)
    (hc : p c = false) : ∃ t, (u ++ c :: v).dropWhile p = t ++ c :: v := by
  induction u with
  | nil => exact ⟨[], by simp [List.dropWhile_cons, hc]⟩
  | cons a t ih =>
    by_cases ha : p a = true
    · obtain ⟨t2, ht2⟩ := ih
      exact ⟨t2, by simp [List.dropWhile_cons, ha, ht2]⟩
    · refine ⟨a :: t, ?_⟩
      rw [List.cons_append, List.dropWhile_cons, if_neg ha]

/-- Right-stripping keeps everything up to the last non-space character. -/
theorem strip_right_after (hd : List Char) (c : Char) (tl : List Char)
    (hc : is_py_space c = false) :
    ∃ t, ((hd ++ c :: tl).reverse.dropWhile is_py_space).reverse = hd ++ c :: t := by
  have hrev : (hd ++ c :: tl).reverse = tl.reverse ++ c :: hd.reverse := by simp
  obtain ⟨t2, ht2⟩ := dropWhile_append_exists tl.reverse c hd.reverse hc
  refine ⟨t2.reverse, ?_⟩
  rw [hrev, ht2]
  simp

/-- A list is a Boolean prefix of itself extended by anything. -/
theorem isPrefixOf_append_self (l x : List Char) : l.isPrefixOf (l ++ x) = true := by
  induction l with
  | nil => simp [List.isPrefixOf]
  | cons a t ih => simp [List.isPrefixOf, ih]

/-- `drop_through_newline` finds the first newline after a clean token. -/
theorem drop_through_newline_append (tok rest : List Char)
    (h : ∀ c ∈ tok, c ≠ '\n') :
    drop_through_newline (tok ++ '\n' :: rest) = some rest := by
  induction tok with
  | nil => simp [drop_through_newline]
  | cons a t ih =>
    have ha : a ≠ '\n' := h a (List.mem_cons_self a t)
    simp [drop_through_newline, ha,
      ih (fun c hc => h c (List.mem_cons_of_mem a hc))]

/-- The regex body matches a full sentinel line and returns the remainder
after its newline. -/
theorem match_become_at_full (tok rest : List Char) (htok : ∀ c ∈ tok, c ≠ '\n') :
    match_become_at ("BECOME-SUCCESS-".data ++ tok ++ '\n' :: rest) = some rest := by
  have heq : "BECOME-SUCCESS-".data ++ tok ++ '\n' :: rest =
      "BECOME-SUCCESS".data ++ ('-' :: (tok ++ '\n' :: rest)) := rfl
  rw [heq]
  unfold match_become_at
  rw [if_pos (isPrefixOf_append_self "BECOME-SUCCESS".data ('-' :: (tok ++ '\n' :: rest)))]
  have hdrop := List.drop_left "BECOME-SUCCESS".data ('-' :: (tok ++ '\n' :: rest))
  rw [show "BECOME-SUCCESS".data.length = 14 from rfl] at hdrop
  rw [hdrop]
  have hdash : ('-' : Char) ≠ '\n' := by decide
  simp only [drop_through_newline, if_neg hdash]
  exact drop_through_newline_append tok rest htok

/-- The anchored regex strips the sentinel line when it is preceded by at
most one (optionally carriage-return preceded) newline. -/
theorem try_become_regex_one_nl (pre tok rest : List Char)
    (hpre : pre = [] ∨ pre = ['\n'] ∨ pre = ['\r', '\n'])
    (htok : ∀ c ∈ tok, c ≠ '\n') :
    try_become_regex (pre ++ "BECOME-SUCCESS-".data ++ tok ++ '\n' :: rest) = some rest := by
  have hm := match_become_at_full tok rest htok
  rcases hpre with h | h | h <;> subst h
  · show try_become_regex
      ('B' :: 'E' :: ("COME-SUCCESS-".data ++ tok ++ '\n' :: rest)) = some rest
    simp only [try_become_regex]
    rw [if_neg (by decide), if_neg (by decide)]
    exact hm
  · show try_become_regex
      ('\n' :: 'B' :: ("ECOME-SUCCESS-".data ++ tok ++ '\n' :: rest)) = some rest
    simp only [try_become_regex]
    rw [if_neg (by decide), if_pos (by decide)]
    have hm2 : match_become_at ('B' :: ("ECOME-SUCCESS-".data ++ tok ++ '\n' :: rest)) =
        some rest := hm
    rw [hm2]
  · show try_become_regex
      ('\r' :: '\n' :: ("BECOME-SUCCESS-".data ++ tok ++ '\n' :: rest)) = some rest
    simp only [try_become_regex]
    rw [if_pos (by decide)]
    rw [hm]

/-- The stripped data starts with the sentinel, so the guard of
`_strip_success_message` fires. -/
theorem strip_guard (pre tok rest : List Char)
    (hpre : pre = [] ∨ pre = ['\n'] ∨ pre = ['\r', '\n']) :
    "BECOME-SUCCESS-".data.isPrefixOf
      (py_strip (pre ++ "BECOME-SUCCESS-".data ++ tok ++ '\n' :: rest)) = true := by
  have hall : ∀ a ∈ pre, is_py_space a = true := by
    rcases hpre with h | h | h <;> subst h <;> decide
  have hassoc : pre ++ "BECOME-SUCCESS-".data ++ tok ++ '\n' :: rest =
      pre ++ ("BECOME-SUCCESS-".data ++ (tok ++ '\n' :: rest)) := by
    simp [List.append_assoc]
  have hstop : ("BECOME-SUCCESS-".data ++ (tok ++ '\n' :: rest)).dropWhile is_py_space =
      "BECOME-SUCCESS-".data ++ (tok ++ '\n' :: rest) :=
    dropWhile_cons_false 'B' ("ECOME-SUCCESS-".data ++ (tok ++ '\n' :: rest)) (by decide)
  have hleft : (pre ++ "BECOME-SUCCESS-".data ++ tok ++ '\n' :: rest).dropWhile is_py_space =
      "BECOME-SUCCESS-".data ++ (tok ++ '\n' :: rest) := by
    rw [hassoc, dropWhile_append_all pre _ hall, hstop]
  obtain ⟨t, ht⟩ :=
    strip_right_after "BECOME-SUCCESS".data '-' (tok ++ '\n' :: rest) (by decide)
  have ht2 : ((("BECOME-SUCCESS-".data ++ (tok ++ '\n' :: rest)).reverse.dropWhile
      is_py_space).reverse) = "BECOME-SUCCESS".data ++ '-' :: t := ht
  unfold py_strip
  rw [hleft, ht2]
  exact isPrefixOf_append_self "BECOME-SUCCESS-".data t

/-- C8 (amended): the sentinel is stripped only when it sits at the very
start of the raw stdout, optionally preceded by a single newline or a
single CRLF pair (the shape the become wrapper actually emits): in that
case the whole `BECOME-SUCCESS-<token>` line including its newline is
removed and the rest of the stdout is returned.  With any other leading
whitespace or noise the data comes back unchanged, sentinel included. -/
theorem claim_C8 (pre tok rest : List Char)
    (hpre : pre = [] ∨ pre = ['\n'] ∨ pre = ['\r', '\n'])
    (htok : ∀ c ∈ tok, c ≠ '\n') :
    strip_success_message (pre ++ "BECOME-SUCCESS-".data ++ tok ++ '\n' :: rest) = rest := by
  unfold strip_success_message
  rw [if_pos (strip_guard pre tok rest hpre)]
  rw [try_become_regex_one_nl pre tok rest hpre htok]

/-- C8 witness: one leading newline, token `abc`, remainder `ok`. -/
theorem claim_C8_witness :
    strip_success_message
      (['\n'] ++ "BECOME-SUCCESS-".data ++ "abc".data ++ '\n' :: "ok".data) = "ok".data :=
  claim_C8 ['\n'] "abc".data "ok".data (Or.inr (Or.inl rfl)) (by decide)

/-- C8 counterexample: with two leading newlines the guard fires (the
stripped data starts with the sentinel) but the anchored regex does not
match, so the returned stdout still contains a full
`BECOME-SUCCESS-<token>` line followed by a newline. -/
theorem claim_C8_counterexample :
    strip_success_message "\n\nBECOME-SUCCESS-xyz\nok".data =
      "\n\nBECOME-SUCCESS-xyz\nok".data ∧
    has_become_success_line "\n\nBECOME-SUCCESS-xyz\nok".data = true ∧
    has_become_success_line
      (strip_success_message "\n\nBECOME-SUCCESS-xyz\nok".data) = true := by
  decide

/-! ### Claim C4 -/

/-- One ordinary character is appended to the current word. -/
theorem shell_split_norm_char (cur : Option (List Char)) (c : Char) (cs : List Char)
    (h1 : c ≠ ' ') (h2 : c ≠ squoteChar) (h3 : c ≠ dquoteChar) :
    shell_split_aux QState.norm cur (c :: cs) =
      shell_split_aux QState.norm (some (cur.getD [] ++ [c])) cs := by
  simp only [shell_split_aux]
  rw [if_neg h1, if_neg h2, if_neg h3]

/-- A double quote opens a double-quoted run. -/
theorem shell_split_norm_dquote (cur : Option (List Char)) (cs : List Char) :
    shell_split_aux QState.norm cur (dquoteChar :: cs) =
      shell_split_aux QState.inD (some (cur.getD [])) cs := by
  simp only [shell_split_aux]
  rw [if_neg (by decide : ¬(dquoteChar = ' ')),
    if_neg (by decide : ¬(dquoteChar = squoteChar))]
  simp

/-- A double quote closes a double-quoted run. -/
theorem shell_split_inD_dquote (cur : Option (List Char)) (cs : List Char) :
    shell_split_aux QState.inD cur (dquoteChar :: cs) =
      shell_split_aux QState.norm cur cs := by
  simp [shell_split_aux]

/-- A space ends the current word. -/
theorem shell_split_norm_space (w : List Char) (cs : List Char) :
    shell_split_aux QState.norm (some w) (' ' :: cs) =
      (shell_split_aux QState.norm none cs).map (fun ws => w :: ws) := by
  simp [shell_split_aux]

/-- A run of ordinary characters is appended to the current word. -/
theorem shell_split_norm_run (k w cs : List Char)
    (h : ∀ c ∈ k, c ≠ ' ' ∧ c ≠ squoteChar ∧ c ≠ dquoteChar) :
    shell_split_aux QState.norm (some w) (k ++ cs) =
      shell_split_aux QState.norm (some (w ++ k)) cs := by
  induction k generalizing w with
  | nil => simp
  | cons c t ih =>
    obtain ⟨h1, h2, h3⟩ := h c (List.mem_cons_self c t)
    rw [List.cons_append, shell_split_norm_char (some w) c (t ++ cs) h1 h2 h3]
    rw [show ((some w).getD [] ++ [c]) = w ++ [c] from rfl]
    rw [ih (w ++ [c]) (fun d hd => h d (List.mem_cons_of_mem c hd))]
    have harg : w ++ [c] ++ t = w ++ c :: t := by simp
    rw [harg]

/-- A run of non-double-quote characters inside a double-quoted run is
appended to the current word. -/
theorem shell_split_inD_run (v w cs : List Char) (h : ∀ c ∈ v, c ≠ dquoteChar) :
    shell_split_aux QState.inD (some w) (v ++ cs) =
      shell_split_aux QState.inD (some (w ++ v)) cs := by
  induction v generalizing w with
  | nil => simp
  | cons c t ih =>
    have h1 := h c (List.mem_cons_self c t)
    rw [List.cons_append]
    simp only [shell_split_aux]
    rw [if_neg h1]
    rw [show ((some w).getD [] ++ [c]) = w ++ [c] from rfl]
    rw [ih (w ++ [c]) (fun d hd => h d (List.mem_cons_of_mem c hd))]
    have harg : w ++ [c] ++ t = w ++ c :: t := by simp
    rw [harg]

/-- Tokenizing one emitted pair `k="v" ` yields the word `k=v` followed by
the tokens of the remainder. -/
theorem shell_split_pair (k v cs : List Char) (hk : k ≠ [])
    (hknorm : ∀ c ∈ k, c ≠ ' ' ∧ c ≠ squoteChar ∧ c ≠ dquoteChar)
    (hv : ∀ c ∈ v, c ≠ dquoteChar) :
    shell_split_aux QState.norm none
        (k ++ '=' :: dquoteChar :: (v ++ dquoteChar :: ' ' :: cs)) =
      (shell_split_aux QState.norm none cs).map (fun ws => (k ++ '=' :: v) :: ws) := by
  obtain ⟨c0, k1, rfl⟩ : ∃ c0 k1, k = c0 :: k1 := by
    cases k with
    | nil => exact absurd rfl hk
    | cons a b => exact ⟨a, b, rfl⟩
  obtain ⟨h1, h2, h3⟩ := hknorm c0 (List.mem_cons_self c0 k1)
  rw [List.cons_append, shell_split_norm_char none c0 _ h1 h2 h3]
  rw [show ((none : Option (List Char)).getD [] ++ [c0]) = [c0] from rfl]
  rw [shell_split_norm_run k1 [c0] _ (fun d hd => hknorm d (List.mem_cons_of_mem c0 hd))]
  rw [shell_split_norm_char (some ([c0] ++ k1)) '=' _ (by decide) (by decide) (by decide)]
  rw [show ((some ([c0] ++ k1)).getD [] ++ ['=']) = [c0] ++ k1 ++ ['='] from rfl]
  rw [shell_split_norm_dquote (some ([c0] ++ k1 ++ ['='])) _]
  rw [show ((some ([c0] ++ k1 ++ ['='])).getD []) = [c0] ++ k1 ++ ['='] from rfl]
  rw [shell_split_inD_run v ([c0] ++ k1 ++ ['=']) _ hv]
  rw [shell_split_inD_dquote (some ([c0] ++ k1 ++ ['='] ++ v)) _]
  rw [shell_split_norm_space ([c0] ++ k1 ++ ['='] ++ v) cs]
  have harg : [c0] ++ k1 ++ ['='] ++ v = (c0 :: k1) ++ '=' :: v := by simp
  rw [harg]

/-- Folding the emission over an accumulator prepends the accumulator. -/
theorem foldl_emit_acc (args : List (List Char × List Char)) :
    ∀ acc : List Char,
      args.foldl (fun a kv => a ++ kv.1 ++ ['=', dquoteChar] ++ pipes_quote kv.2
        ++ [dquoteChar, ' ']) acc =
      acc ++ args.foldl (fun a kv => a ++ kv.1 ++ ['=', dquoteChar] ++ pipes_quote kv.2
        ++ [dquoteChar, ' ']) [] := by
  induction args with
  | nil => intro acc; simp
  | cons kv rest ih =>
    intro acc
    simp only [List.foldl_cons]
    rw [ih (acc ++ kv.1 ++ ['=', dquoteChar] ++ pipes_quote kv.2 ++ [dquoteChar, ' ']),
      ih ([] ++ kv.1 ++ ['=', dquoteChar] ++ pipes_quote kv.2 ++ [dquoteChar, ' '])]
    simp [List.append_assoc]

/-- The emission of a nonempty args list starts with its first pair. -/
theorem emit_old_style_cons (kv : List Char × List Char)
    (rest : List (List Char × List Char)) :
    emit_old_style_args (kv :: rest) =
      kv.1 ++ ['=', dquoteChar] ++ pipes_quote kv.2 ++ [dquoteChar, ' ']
        ++ emit_old_style_args rest := by
  unfold emit_old_style_args
  simp only [List.foldl_cons]
  rw [foldl_emit_acc rest]
  simp [List.append_assoc]

/-- `pipes.quote` leaves a nonempty all-safe string unchanged. -/
theorem pipes_quote_safe (v : List Char) (hne : v ≠ [])
    (hs : ∀ c ∈ v, is_safe_char c = true) : pipes_quote v = v := by
  have h1 : v.isEmpty = false := by
    cases v with
    | nil => exact absurd rfl hne
    | cons a b => rfl
  have h2 : v.all is_safe_char = true := List.all_eq_true.mpr hs
  unfold pipes_quote
  rw [if_pos (by rw [h1, h2]; rfl)]

/-- A `pipes.quote`-safe character is not a space or a quote. -/
theorem safe_char_normal (c : Char) (h : is_safe_char c = true) :
    c ≠ ' ' ∧ c ≠ squoteChar ∧ c ≠ dquoteChar := by
  refine ⟨?_, ?_, ?_⟩ <;> intro e <;> subst e <;> revert h <;> decide

/-- Splitting `k=v` at the first `=` recovers the pair when the key has no
`=`. -/
theorem split_eq_append (k v : List Char) (h : ∀ c ∈ k, c ≠ '=') :
    split_eq (k ++ '=' :: v) = some (k, v) := by
  induction k with
  | nil => simp [split_eq]
  | cons a t ih =>
    have ha := h a (List.mem_cons_self a t)
    simp [split_eq, ha, ih (fun c hc => h c (List.mem_cons_of_mem a hc))]

/-- Tokenizing a full emission yields one `k=v` word per pair. -/
theorem shell_split_emit (args : List (List Char × List Char))
    (hkey : ∀ p ∈ args, p.1 ≠ [] ∧ ∀ c ∈ p.1, is_safe_char c = true ∧ c ≠ '=')
    (hval : ∀ p ∈ args, p.2 ≠ [] ∧ ∀ c ∈ p.2, is_safe_char c = true) :
    shell_split_aux QState.norm none (emit_old_style_args args) =
      some (args.map (fun kv => kv.1 ++ '=' :: kv.2)) := by
  induction args with
  | nil => rfl
  | cons kv rest ih =>
    obtain ⟨k, v⟩ := kv
    obtain ⟨hkne, hkc⟩ := hkey (k, v) (List.mem_cons_self _ _)
    obtain ⟨hvne, hvc⟩ := hval (k, v) (List.mem_cons_self _ _)
    rw [emit_old_style_cons (k, v) rest, pipes_quote_safe v hvne hvc]
    have hshape : (k, v).1 ++ ['=', dquoteChar] ++ v ++ [dquoteChar, ' ']
        ++ emit_old_style_args rest =
        k ++ '=' :: dquoteChar :: (v ++ dquoteChar :: ' ' :: emit_old_style_args rest) := by
      simp [List.append_assoc]
    rw [hshape]
    rw [shell_split_pair k v (emit_old_style_args rest) hkne
      (fun c hc => safe_char_normal c (hkc c hc).1)
      (fun c hc => (safe_char_normal c (hvc c hc)).2.2)]
    rw [ih (fun p hp => hkey p (List.mem_cons_of_mem _ hp))
      (fun p hp => hval p (List.mem_cons_of_mem _ hp))]
    rfl

/-- Splitting every emitted word at its first `=` recovers the pairs. -/
theorem mapM_split_eq (args : List (List Char × List Char))
    (hkey : ∀ p ∈ args, ∀ c ∈ p.1, c ≠ '=') :
    (args.map (fun kv => kv.1 ++ '=' :: kv.2)).mapM split_eq = some args := by
  induction args with
  | nil => rfl
  | cons kv rest ih =>
    obtain ⟨k, v⟩ := kv
    simp only [List.map_cons, List.mapM_cons]
    rw [split_eq_append k v (hkey (k, v) (List.mem_cons_self _ _)),
      ih (fun p hp => hkey p (List.mem_cons_of_mem _ hp))]
    rfl

/-- C4 (amended): the old-style args round trip holds exactly on the tame
fragment: when every key is nonempty, `pipes.quote`-safe and free of `=`,
and every value is nonempty and `pipes.quote`-safe (so `pipes.quote` is the
identity on it), shell-unquoting the emitted file recovers the original
mapping.  In general the round trip fails, because the quoting added by
`pipes.quote` is wrapped in literal double quotes and survives into the
parsed value. -/
theorem claim_C4 (args : List (List Char × List Char))
    (hkey : ∀ p ∈ args, p.1 ≠ [] ∧ ∀ c ∈ p.1, is_safe_char c = true ∧ c ≠ '=')
    (hval : ∀ p ∈ args, p.2 ≠ [] ∧ ∀ c ∈ p.2, is_safe_char c = true) :
    spec_parse_old_style_args (emit_old_style_args args) = some args := by
  unfold spec_parse_old_style_args
  rw [shell_split_emit args hkey hval]
  exact mapM_split_eq args (fun p hp c hc => ((hkey p hp).2 c hc).2)

/-- C4 witness: the mapping `{foo: bar}` round-trips. -/
theorem claim_C4_witness :
    spec_parse_old_style_args (emit_old_style_args [("foo".data, "bar".data)]) =
      some [("foo".data, "bar".data)] :=
  claim_C4 [("foo".data, "bar".data)] (by decide) (by decide)

/-- C4 counterexample: the value `a b` is emitted with an inner layer of
single quotes inside the literal double quotes, and shell unquoting keeps
those single quotes in the recovered value, so the round trip fails. -/
theorem claim_C4_counterexample :
    spec_parse_old_style_args (emit_old_style_args [("foo".data, "a b".data)]) =
      some [("foo".data, squoteChar :: 'a' :: ' ' :: 'b' :: [squoteChar])] ∧
    some [("foo".data, squoteChar :: 'a' :: ' ' :: 'b' :: [squoteChar])] ≠
      some [("foo".data, "a b".data)] := by
  decide
